import Mathlib

/-!
Verification of the connection-state core of a capability RPC runtime
(`src/rpc.rs`).  The Rust code is shallowly embedded: pure data structures
become Lean structures, `u32` ids become `Nat` with explicit `% 2 ^ 32`
where wrap-around matters, operations that can hit a Rust `panic!` or an
`unimplemented!()` macro return `Option` (with `none` for the crash) or a
dedicated outcome constructor, and side-effecting methods are written as
explicit state-passing functions that also return the list of protocol
messages they emit.
-/

namespace Rpc

/-! ## ExportTable (rpc.rs lines 78-125)

The Rust table is `slots : Vec<Option<T>>` plus `free_ids : BinaryHeap<ReverseU32>`.
`ReverseU32` inverts the ordering on `u32` (lines 81-93), so `BinaryHeap::pop`,
which removes a greatest element of the heap order, removes a smallest stored
id.  We model the heap as a `List Nat` used as a multiset: `pop` takes
`List.min?` and erases one occurrence of it, `BinaryHeap::push` is `List.cons`.
-/

/-- Model of `ExportTable<T>` (rpc.rs lines 95-100). -/
structure ExportTable (T : Type) where
  slots : List (Option T)
  free_ids : List Nat
deriving DecidableEq

/-- Model of `ExportTable::new` (rpc.rs lines 103-106). -/
def ExportTable.new {T : Type} : ExportTable T :=
  { slots := [], free_ids := [] }

/-- Model of `ExportTable::erase` (rpc.rs lines 108-111): `slots[id] = None`
then push `id` onto the free heap.  Rust indexing panics when `id` is out of
range; the panic is modeled as `none`. -/
def ExportTable.erase {T : Type} (t : ExportTable T) (id : Nat) : Option (ExportTable T) :=
  if id < t.slots.length then
    some { slots := t.slots.set id Option.none, free_ids := id :: t.free_ids }
  else
    Option.none

/-- Model of `ExportTable::push` (rpc.rs lines 113-124).  Popping the heap of
`ReverseU32` yields the least free id; if the heap is empty the value is
appended and `slots.len() as u32 - 1` is returned, which on `u32` equals
`((len + 1) % 2 ^ 32 + (2 ^ 32 - 1)) % 2 ^ 32` for the new length `len + 1`.
Rust indexing `slots[id]` panics when a popped id is out of range; the panic is
modeled as `none`. -/
def ExportTable.push {T : Type} (t : ExportTable T) (val : T) : Option (Nat × ExportTable T) :=
  match t.free_ids.min? with
  | some id =>
    if id < t.slots.length then
      some (id, { slots := t.slots.set id (some val), free_ids := t.free_ids.erase id })
    else
      Option.none
  | Option.none =>
    some (((t.slots.length + 1) % 2 ^ 32 + (2 ^ 32 - 1)) % 2 ^ 32,
          { slots := t.slots ++ [some val], free_ids := t.free_ids })

/-- An id is free in the table when its slot is null or it lies beyond the
dense part of the table (never used). -/
def ExportTable.isFreeId {T : Type} (t : ExportTable T) (i : Nat) : Prop :=
  t.slots[i]? = some Option.none ∨ t.slots.length ≤ i

/-- Well-formedness of an export table: the free heap holds each id at most
once, and the ids stored in the heap are exactly the indices of null slots. -/
def ExportTable.WF {T : Type} (t : ExportTable T) : Prop :=
  t.free_ids.Nodup ∧ ∀ i, i ∈ t.free_ids ↔ t.slots[i]? = some Option.none

/-- One operation on an export table. -/
inductive TableOp (T : Type) where
  | push (v : T)
  | erase (id : Nat)

/-- Precondition under which an operation cannot panic and respects the
caller-owned contract: `erase` is only called on an id whose slot is live,
which for any run out of `ExportTable.new` is exactly the ids returned by an
earlier `push` and not erased since. -/
def legalOp {T : Type} (t : ExportTable T) : TableOp T → Prop
  | TableOp.push _ => True
  | TableOp.erase id => ∃ w, t.slots[id]? = some (some w)

/-- Run one table operation, `none` on a panic. -/
def runOp {T : Type} (t : ExportTable T) : TableOp T → Option (ExportTable T)
  | TableOp.push v => (t.push v).map (fun p => p.2)
  | TableOp.erase id => t.erase id

/-- Run a sequence of table operations, `none` on a panic. -/
def runOps {T : Type} (t : ExportTable T) : List (TableOp T) → Option (ExportTable T)
  | [] => some t
  | op :: ops =>
    match runOp t op with
    | some s => runOps s ops
    | Option.none => Option.none

/-- A sequence of operations each of which is legal and succeeds in the state
reached by its predecessors. -/
inductive LegalSeq {T : Type} : ExportTable T → List (TableOp T) → Prop where
  | nil (t : ExportTable T) : LegalSeq t []
  | cons (t : ExportTable T) (op : TableOp T) (s : ExportTable T) (ops : List (TableOp T)) :
      legalOp t op → runOp t op = some s → LegalSeq s ops → LegalSeq t (op :: ops)

/-- Scenario S6 of the spec: allocate ids 0, 1, 2, then erase id 1. -/
def idReuseTable : Option (ExportTable Unit) :=
  (ExportTable.new.push ()).bind fun p1 =>
  (p1.2.push ()).bind fun p2 =>
  (p2.2.push ()).bind fun p3 =>
  p3.2.erase 1

/-- The ids returned by the two pushes that follow scenario S6. -/
def idReuseNextIds : Option (Nat × Nat) :=
  idReuseTable.bind fun t =>
  (t.push ()).bind fun p4 =>
  (p4.2.push ()).map fun p5 => (p4.1, p5.1)

/-! ## Errors (rpc.rs lines 235-248) -/

/-- The four error kinds of `capnp::ErrorKind`. -/
inductive ErrorKind where
  | failed
  | overloaded
  | disconnected
  | unimplemented
deriving DecidableEq

/-- Model of `capnp::Error`: a kind plus a reason string. -/
structure RpcError where
  kind : ErrorKind
  reason : String
deriving DecidableEq

/-- The four decoded values of the wire `Exception.type` enum. -/
inductive ExcType where
  | failed
  | overloaded
  | disconnected
  | unimplemented
deriving DecidableEq

/-- A wire `exception::Reader` as `remote_exception_to_error` observes it:
`get_type()` and `get_reason()` each either decode (`some`) or fail
(`Option.none`, covering `NotInSchema` on an unknown discriminant and any
text decode error). -/
structure WireException where
  etype : Option ExcType
  reason : Option String
deriving DecidableEq

/-- Model of `remote_exception_to_error` (rpc.rs lines 235-248): the match on
`(exception.get_type(), exception.get_reason())` picks the kind and reason,
falling back to `(Failed, "(malformed error)")`, then formats
`"remote exception: {reason}"`. -/
def remoteExceptionToError (exception : WireException) : RpcError :=
  let kr : ErrorKind × String :=
    match exception.etype, exception.reason with
    | some ExcType.failed, some reason => (ErrorKind.failed, reason)
    | some ExcType.overloaded, some reason => (ErrorKind.overloaded, reason)
    | some ExcType.disconnected, some reason => (ErrorKind.disconnected, reason)
    | some ExcType.unimplemented, some reason => (ErrorKind.unimplemented, reason)
    | _, _ => (ErrorKind.failed, "(malformed error)")
  { kind := kr.1, reason := "remote exception: " ++ kr.2 }

/-- The error kind that `remote_exception_to_error` assigns to each
successfully decoded wire exception type. -/
def excTypeKind : ExcType → ErrorKind
  | ExcType.failed => ErrorKind.failed
  | ExcType.overloaded => ErrorKind.overloaded
  | ExcType.disconnected => ErrorKind.disconnected
  | ExcType.unimplemented => ErrorKind.unimplemented

/-! ## Capability descriptors and capabilities -/

/-- A decoded `CapDescriptor` union value (schema in §6 of the spec; consumed
by `write_descriptor` and `receive_cap`). -/
inductive CapDescriptor where
  | none
  | sender_hosted (id : Nat)
  | sender_promise (id : Nat)
  | receiver_hosted (id : Nat)
  | receiver_answer (question_id : Nat) (ops : List Nat)
  | third_party_hosted
deriving DecidableEq

/-- The innermost, settled view of a `ClientHook` as `write_descriptor`
observes it: its brand (`get_brand()`, 0 for a `LocalClient`, the connection
address otherwise), its pointer identity (`get_ptr()`), whether
`when_more_resolved()` returns `Some` (a still-pending promise), and — for
hooks whose brand matches the connection — the descriptor that the hook's own
`write_descriptor` writes and the export id it returns, which the
`ConnectionState` merely copies out (rpc.rs lines 586-616). -/
structure SettledCap where
  brand : Nat
  ptr : Nat
  when_more_resolved_some : Bool
  own_descriptor : CapDescriptor
  own_result : Option Nat
deriving DecidableEq

/-- A `ClientHook` as seen through `get_resolved()`: a chain of resolved
promise wrappers ending in a hook that resolves no further. -/
inductive Cap where
  | wrap (inner : Cap)
  | base (c : SettledCap)
deriving DecidableEq

/-- The loop at the top of `ConnectionState::write_descriptor` (rpc.rs lines
576-585): follow `get_resolved()` until it returns `None`. -/
def resolveInner : Cap → SettledCap
  | Cap.wrap inner => resolveInner inner
  | Cap.base c => c

/-! ## Table entries (rpc.rs lines 127-233) -/

/-- Model of `Export` (rpc.rs lines 193-200); the stored `client_hook` is the
settled hook that was exported. -/
structure Export where
  ref_count : Nat
  client_hook : SettledCap
deriving DecidableEq

/-- Model of `Export::new` (rpc.rs lines 202-210): refcount starts at 1. -/
def Export.new (client_hook : SettledCap) : Export :=
  { ref_count := 1, client_hook := client_hook }

/-- Model of `Question` (rpc.rs lines 127-134).  The
`self_ref : Option<Rc<RefCell<QuestionRef>>>` is modeled by the identity of
the live `QuestionRef`, if any. -/
structure Question where
  is_awaiting_return : Bool
  param_exports : List Nat
  is_tail_call : Bool
  self_ref : Option Nat
deriving DecidableEq

/-- The mutable payload of an `Rc<RefCell<ImportClient>>` (rpc.rs lines
1163-1194). -/
structure ImportClient where
  import_id : Nat
  remote_ref_count : Nat
deriving DecidableEq

/-- Model of `Import` (rpc.rs lines 212-233).  The `app_client` field only
records whether an application client has been stored. -/
structure Import where
  import_client : Option ImportClient
  app_client : Bool
deriving DecidableEq

/-- Model of `Import::new` (rpc.rs lines 225-233). -/
def Import.new : Import :=
  { import_client := Option.none, app_client := false }

/-! ## Connection state (rpc.rs lines 270-297) -/

/-- Association-list model of `HashMap` insertion: replace the binding of the
key if present, append it otherwise. -/
def listInsert {B : Type} (k : Nat) (v : B) : List (Nat × B) → List (Nat × B)
  | [] => [(k, v)]
  | (k2, v2) :: rest =>
    if k = k2 then (k, v) :: rest else (k2, v2) :: listInsert k v rest

/-- The table-holding part of `ConnectionState` (rpc.rs lines 270-280).
`brand` is `get_brand()` (rpc.rs lines 514-516), the address of the state,
hence nonzero and distinct from the `LocalClient` brand 0.  The two hash maps
(`imports.slots` and `exports_by_cap`) are modeled as association lists. -/
structure ConnState where
  brand : Nat
  exports : ExportTable Export
  questions : ExportTable Question
  imports : List (Nat × Import)
  exports_by_cap : List (Nat × Nat)
deriving DecidableEq

/-! ## Descriptor codec (rpc.rs lines 572-736) -/

/-- Outcome of `ConnectionState::write_descriptor`: the descriptor written into
the builder, the returned `Option<ExportId>` and the updated connection state,
or a crash on one of the `unimplemented!()` arms. -/
inductive WDOutcome where
  | ok (descriptor : CapDescriptor) (result : Option Nat) (st : ConnState)
  | crashed
deriving DecidableEq

/-- Model of `ConnectionState::write_descriptor` (rpc.rs lines 572-640).
First the cap is walked through `get_resolved()` to the innermost settled
hook.  If the inner brand matches the connection, the hook writes its own
descriptor and the state copies it out, crashing on the unmatched
`ThirdPartyHosted` arm (line 612-614).  Otherwise the hook is foreign to this
connection (a local hook has brand 0): if `exports_by_cap` already holds its
pointer the code reaches the `unimplemented!()` at line 622 (its own comment
says it should only bump the refcount); otherwise a fresh `Export` with
refcount 1 is pushed, the pointer-to-id binding recorded, and — unless
`when_more_resolved()` is `Some`, another `unimplemented!()` at line 631 —
`SenderHosted(export_id)` is written and `Some(export_id)` returned. -/
def writeDescriptor (st : ConnState) (cap : Cap) : WDOutcome :=
  let inner := resolveInner cap
  if inner.brand = st.brand then
    match inner.own_descriptor with
    | CapDescriptor.none => WDOutcome.ok CapDescriptor.none inner.own_result st
    | CapDescriptor.sender_hosted id =>
      WDOutcome.ok (CapDescriptor.sender_hosted id) inner.own_result st
    | CapDescriptor.sender_promise id =>
      WDOutcome.ok (CapDescriptor.sender_promise id) inner.own_result st
    | CapDescriptor.receiver_hosted id =>
      WDOutcome.ok (CapDescriptor.receiver_hosted id) inner.own_result st
    | CapDescriptor.receiver_answer qid ops =>
      WDOutcome.ok (CapDescriptor.receiver_answer qid ops) inner.own_result st
    | CapDescriptor.third_party_hosted => WDOutcome.crashed
  else
    if (st.exports_by_cap.lookup inner.ptr).isSome then
      WDOutcome.crashed
    else
      match st.exports.push (Export.new inner) with
      | some (export_id, exports2) =>
        if inner.when_more_resolved_some then
          WDOutcome.crashed
        else
          WDOutcome.ok (CapDescriptor.sender_hosted export_id) (some export_id)
            { st with exports := exports2,
                      exports_by_cap := listInsert inner.ptr export_id st.exports_by_cap }
      | Option.none => WDOutcome.crashed

/-- Model of `ConnectionState::import` (rpc.rs lines 668-700; named `import`
in the source, which is a keyword here).  The entry for `import_id` is
created on demand (`entry(..).or_insert(Import::new())`), an `ImportClient`
is reused or created, `add_remote_ref` bumps its `remote_ref_count` by one,
and for the non-promise case the client is also stored as `app_client`.  The
`is_promise` branch is `unimplemented!()` (line 688), modeled as `none`. -/
def importCap (st : ConnState) (import_id : Nat) (is_promise : Bool) :
    Option (ConnState × ImportClient) :=
  let entry := match st.imports.lookup import_id with
    | some e => e
    | Option.none => Import.new
  let client0 := match entry.import_client with
    | some c => c
    | Option.none => { import_id := import_id, remote_ref_count := 0 }
  let client := { client0 with remote_ref_count := client0.remote_ref_count + 1 }
  if is_promise then
    Option.none
  else
    some ({ st with imports :=
              listInsert import_id { import_client := some client, app_client := true } st.imports },
          client)

/-- A client hook as recovered by the receive path: either an import client
(for `SenderHosted` descriptors) or the clone of an exported hook (what
`get_message_target` hands back). -/
inductive Hook where
  | imported (c : ImportClient)
  | exported (c : SettledCap)
deriving DecidableEq

/-- Model of `ConnectionState::receive_cap` (rpc.rs lines 702-725): `None`
yields no hook, `SenderHosted`/`SenderPromise` go through the import path,
and the remaining three arms are `unimplemented!()` (modeled as `none`). -/
def receiveCap (st : ConnState) (descriptor : CapDescriptor) :
    Option (ConnState × Option Hook) :=
  match descriptor with
  | CapDescriptor.none => some (st, Option.none)
  | CapDescriptor.sender_hosted id =>
    match importCap st id false with
    | some (st2, c) => some (st2, some (Hook.imported c))
    | Option.none => Option.none
  | CapDescriptor.sender_promise id =>
    match importCap st id true with
    | some (st2, c) => some (st2, some (Hook.imported c))
    | Option.none => Option.none
  | _ => Option.none

/-- Model of `ConnectionState::receive_caps` (rpc.rs lines 727-736): decode
every descriptor of the cap table in order, threading the state. -/
def receiveCaps (st : ConnState) : List CapDescriptor → Option (ConnState × List (Option Hook))
  | [] => some (st, [])
  | d :: ds =>
    match receiveCap st d with
    | some (st2, h) =>
      match receiveCaps st2 ds with
      | some (st3, hs) => some (st3, h :: hs)
      | Option.none => Option.none
    | Option.none => Option.none

/-- The import client currently registered for an id, if any. -/
def lookupImportClient (st : ConnState) (k : Nat) : Option ImportClient :=
  match st.imports.lookup k with
  | some e => e.import_client
  | Option.none => Option.none

/-- The remote refcount currently recorded for an import id (0 when absent). -/
def importedRefCount (st : ConnState) (k : Nat) : Nat :=
  match lookupImportClient st k with
  | some c => c.remote_ref_count
  | Option.none => 0

/-! ## Message targets (rpc.rs lines 518-536) -/

/-- A decoded `MessageTarget` union value. -/
inductive MessageTarget where
  | imported_cap (id : Nat)
  | promised_answer (question_id : Nat) (transform : List Nat)
deriving DecidableEq

/-- Outcome of `ConnectionState::get_message_target`: the
`capnp::Result<Option<Box<ClientHook>>>` (`ok`/`err`) or a crash on an
`unimplemented!()` arm. -/
inductive GMTOutcome where
  | ok (hook : Option Hook)
  | err (e : RpcError)
  | crashed
deriving DecidableEq

/-- Model of `ConnectionState::get_message_target` (rpc.rs lines 518-536).
For `ImportedCap(id)` the code calls `slots.get(id as usize)`: only a live
`Some(&Some(exp))` entry yields `Ok(Some(clone))`; both an out-of-range id
and an erased (`Some(&None)`) slot fall to the `_` arm and yield `Ok(None)`.
The `PromisedAnswer` arm is `unimplemented!()`. -/
def getMessageTarget (st : ConnState) (target : MessageTarget) : GMTOutcome :=
  match target with
  | MessageTarget.imported_cap export_id =>
    match st.exports.slots[export_id]? with
    | some (some exp) => GMTOutcome.ok (some (Hook.exported exp.client_hook))
    | _ => GMTOutcome.ok Option.none
  | MessageTarget.promised_answer _ _ => GMTOutcome.crashed

/-! ## The Return arm of the dispatcher (rpc.rs lines 400-445, 505-508) -/

/-- A decoded `return_::Which` union value. -/
inductive ReturnVariant where
  | results (cap_table : List CapDescriptor)
  | exception (e : WireException)
  | canceled
  | results_sent_elsewhere
  | take_from_other_question (q : Nat)
  | accept_from_third_party
deriving DecidableEq

/-- Model of `Response` as far as the dispatcher is concerned (rpc.rs lines
739-764): it carries the incoming message (identified here by a number) and
the hooks recovered from the return's cap table.  The backing
`ResponseState` also stores the connection state and the question ref, which
add nothing to the claims. -/
structure Response where
  message : Nat
  hooks : List (Option Hook)
deriving DecidableEq

/-- Observable effect of the dispatcher on a `QuestionRef`: fulfilling it
with a response or rejecting it with an error (rpc.rs lines 156-163). -/
inductive Event where
  | fulfilled (question_ref : Nat) (response : Response)
  | rejected (question_ref : Nat) (error : RpcError)
deriving DecidableEq

/-- Outcome of one dispatcher step: the updated state plus emitted events, or
a crash on a panic / `unimplemented!()`.  (The `message::Abort` arm, not
modeled here, is the only Return-adjacent path that yields `Err`.) -/
inductive HandleOutcome where
  | ok (st : ConnState) (events : List Event)
  | crashed
deriving DecidableEq

/-- Set `is_awaiting_return := false` on the question in slot `answer_id`
(the first thing the `message::Return` arm does to a found question,
rpc.rs line 405). -/
def clearAwait (st : ConnState) (answer_id : Nat) (q : Question) : ConnState :=
  { st with questions :=
      { st.questions with
        slots := st.questions.slots.set answer_id (some { q with is_awaiting_return := false }) } }

/-- Model of the `message::Return` arm of `ConnectionState::handle_message`
(rpc.rs lines 400-445 and 505-508).  The question slot is looked up by direct
index (a panic when out of range) and must be occupied (`unimplemented!()`
otherwise); `is_awaiting_return` is cleared; the question must still have a
live `QuestionRef` (`unimplemented!()` otherwise).  `Results` decodes the cap
table via `receive_caps`, builds a `Response` from the message and the hooks
and fulfills the ref; `Exception` rejects the ref with the decoded error; the
four reserved variants are `unimplemented!()`.  `message` stands for the
boxed incoming message. -/
def handleReturn (st : ConnState) (message : Nat) (answer_id : Nat) (ret : ReturnVariant) :
    HandleOutcome :=
  match st.questions.slots[answer_id]? with
  | some (some q) =>
    let st1 := clearAwait st answer_id q
    match q.self_ref with
    | some question_ref =>
      match ret with
      | ReturnVariant.results cap_table =>
        match receiveCaps st1 cap_table with
        | some (st2, hooks) =>
          HandleOutcome.ok st2
            [Event.fulfilled question_ref { message := message, hooks := hooks }]
        | Option.none => HandleOutcome.crashed
      | ReturnVariant.exception e =>
        HandleOutcome.ok st1 [Event.rejected question_ref (remoteExceptionToError e)]
      | _ => HandleOutcome.crashed
    | Option.none => HandleOutcome.crashed
  | _ => HandleOutcome.crashed

/-! ## Promise clients and question refs (rpc.rs lines 143-170, 1233-1304) -/

/-- Protocol messages whose emission the claims track. -/
inductive Msg where
  | disembargo
  | finish (question_id : Nat) (release_result_caps : Bool)
deriving DecidableEq

/-- Model of `PromiseClient` (rpc.rs lines 1233-1241) restricted to the
fields `resolve` touches. -/
structure PromiseClient where
  is_resolved : Bool
  cap : Cap
  import_id : Option Nat
  received_call : Bool
deriving DecidableEq

/-- Model of `PromiseClient::resolve` (rpc.rs lines 1277-1288), returning the
updated client and the messages it emits.  The source computes the
replacement's brand, then guards the whole embargo block with
`if false && !is_error { ... }` whose body is anyway only a comment — so no
`Disembargo` is ever emitted — and unconditionally installs the replacement:
`self.cap = replacement; self.is_resolved = true`. -/
def PromiseClient.resolve (c : PromiseClient) (replacement : Cap) (is_error : Bool) :
    PromiseClient × List Msg :=
  let emitted : List Msg := if False ∧ ¬ is_error then [] else []
  ({ c with cap := replacement, is_resolved := true }, emitted)

/-- Model of `QuestionRef` (rpc.rs lines 143-149): the question id and
whether the result fulfiller is still present. -/
structure QuestionRef where
  id : Nat
  has_fulfiller : Bool
deriving DecidableEq

/-- Model of `impl Drop for QuestionRef` (rpc.rs lines 166-170): the body is
only the comment `// TODO send the Finish message.`, so dropping emits no
message at all. -/
def QuestionRef.dropEmitted (_q : QuestionRef) : List Msg := []

/-- Recognizer for `Finish` messages. -/
def Msg.isFinish : Msg → Bool
  | Msg.finish _ _ => true
  | _ => false

/-! ## Concrete fixtures used by the claim theorems and witnesses -/

/-- A settled local hook (brand 0) with pointer identity 77. -/
def c1LocalHook : SettledCap :=
  { brand := 0, ptr := 77, when_more_resolved_some := false,
    own_descriptor := CapDescriptor.none, own_result := Option.none }

/-- A connection state (brand 3) that has already exported `c1LocalHook` as
export id 0 and recorded its pointer in `exports_by_cap`. -/
def c1State : ConnState :=
  { brand := 3,
    exports := { slots := [some (Export.new c1LocalHook)], free_ids := [] },
    questions := ExportTable.new,
    imports := [],
    exports_by_cap := [(77, 0)] }

/-- The already-exported local capability, behind one resolved-promise
wrapper so that the `get_resolved()` walk is exercised. -/
def c1Cap : Cap := Cap.wrap (Cap.base c1LocalHook)

/-- A promise client that has received a call (`received_call = true`) and
currently forwards to a remote hook of connection brand 3. -/
def c2Promise : PromiseClient :=
  { is_resolved := false,
    cap := Cap.base { brand := 3, ptr := 10, when_more_resolved_some := false,
                      own_descriptor := CapDescriptor.sender_hosted 4, own_result := Option.none },
    import_id := some 5,
    received_call := true }

/-- A local (brand 0) replacement capability for `c2Promise`. -/
def c2LocalTarget : Cap :=
  Cap.base { brand := 0, ptr := 99, when_more_resolved_some := false,
             own_descriptor := CapDescriptor.none, own_result := Option.none }

/-- A question whose `QuestionRef` 7 is still live. -/
def c5Question : Question :=
  { is_awaiting_return := true, param_exports := [], is_tail_call := false, self_ref := some 7 }

/-- A connection state with `c5Question` in question slot 0. -/
def c5State : ConnState :=
  { brand := 3,
    exports := ExportTable.new,
    questions := { slots := [some c5Question], free_ids := [] },
    imports := [],
    exports_by_cap := [] }

/-- A question whose `QuestionRef` 9 is still live. -/
def c6Question : Question :=
  { is_awaiting_return := true, param_exports := [], is_tail_call := false, self_ref := some 9 }

/-- A connection state with `c6Question` in question slot 0. -/
def c6State : ConnState :=
  { brand := 3,
    exports := ExportTable.new,
    questions := { slots := [some c6Question], free_ids := [] },
    imports := [],
    exports_by_cap := [] }

/-- A connection state with an empty import table. -/
def c7State : ConnState :=
  { brand := 2,
    exports := ExportTable.new,
    questions := ExportTable.new,
    imports := [],
    exports_by_cap := [] }

/-- A live export of a local hook with pointer identity 55. -/
def c9Export : Export :=
  Export.new { brand := 0, ptr := 55, when_more_resolved_some := false,
               own_descriptor := CapDescriptor.none, own_result := Option.none }

/-- A connection state whose export table has a live entry in slot 0 and an
erased slot 1. -/
def c9State : ConnState :=
  { brand := 4,
    exports := { slots := [some c9Export, Option.none], free_ids := [1] },
    questions := ExportTable.new,
    imports := [],
    exports_by_cap := [] }

/-! ## Helper lemmas about the free-id heap and the export table -/

/-- Looking up the key just inserted into an association list finds the
inserted value. -/
theorem lookup_listInsert {B : Type} (k : Nat) (v : B) (l : List (Nat × B)) :
    (listInsert k v l).lookup k = some v := by
  induction l with
  | nil => simp [listInsert, List.lookup]
  | cons p rest ih =>
    obtain ⟨k2, v2⟩ := p
    by_cases hk : k = k2
    · subst hk
      simp [listInsert, List.lookup]
    · have hbeq : (k == k2) = false := by simp [hk]
      simp [listInsert, hk, List.lookup, hbeq, ih]

/-- `receive_cap` only touches the import table: questions and exports are
unchanged. -/
theorem receiveCap_questions (st : ConnState) (d : CapDescriptor) (st2 : ConnState)
    (h : Option Hook) (heq : receiveCap st d = some (st2, h)) :
    st2.questions = st.questions ∧ st2.exports = st.exports := by
  cases d with
  | none =>
    simp only [receiveCap, Option.some.injEq, Prod.mk.injEq] at heq
    rw [← heq.1]
    exact ⟨rfl, rfl⟩
  | sender_hosted id =>
    simp only [receiveCap, importCap, if_false, Option.some.injEq, Prod.mk.injEq,
      Bool.false_eq_true, ite_false] at heq
    rw [← heq.1]
    exact ⟨rfl, rfl⟩
  | sender_promise id =>
    simp [receiveCap, importCap] at heq
  | receiver_hosted id => simp [receiveCap] at heq
  | receiver_answer qid ops => simp [receiveCap] at heq
  | third_party_hosted => simp [receiveCap] at heq

/-- `receive_caps` only touches the import table: the question table is
unchanged. -/
theorem receiveCaps_questions (ds : List CapDescriptor) :
    ∀ (st st2 : ConnState) (hs : List (Option Hook)),
      receiveCaps st ds = some (st2, hs) → st2.questions = st.questions := by
  induction ds with
  | nil =>
    intro st st2 hs h
    simp only [receiveCaps, Option.some.injEq, Prod.mk.injEq] at h
    rw [← h.1]
  | cons d rest ih =>
    intro st st2 hs h
    simp only [receiveCaps] at h
    cases hc : receiveCap st d with
    | none =>
      rw [hc] at h
      exact absurd h (by simp)
    | some p =>
      obtain ⟨stm, hm⟩ := p
      rw [hc] at h
      dsimp only at h
      cases hr : receiveCaps stm rest with
      | none =>
        rw [hr] at h
        exact absurd h (by simp)
      | some p2 =>
        obtain ⟨stn, hsn⟩ := p2
        rw [hr] at h
        simp only [Option.some.injEq, Prod.mk.injEq] at h
        rw [← h.1, ih stm stn hsn hr, (receiveCap_questions st d stm hm hc).1]

/-- Characterization of `List.min?` on lists of naturals. -/
theorem natList_min?_iff (l : List Nat) (m : Nat) :
    l.min? = some m ↔ m ∈ l ∧ ∀ b ∈ l, m ≤ b :=
  List.min?_eq_some_iff (fun a => Nat.le_refl a) (fun a b => min_choice a b)
    (fun a b c => Nat.le_min)

/-- Wrapping arithmetic of the append branch of `push`: for a table below the
`u32` limit, `slots.len() as u32 - 1` after the append is the old length. -/
theorem mod32_append_id (len : Nat) (h : len < 2 ^ 32) :
    ((len + 1) % 2 ^ 32 + (2 ^ 32 - 1)) % 2 ^ 32 = len := by
  have h32 : (2 : Nat) ^ 32 = 4294967296 := by norm_num
  rw [h32] at h ⊢
  omega

/-- Case analysis of `push` on a well-formed table: either the heap is
nonempty and its least id (which addresses a null slot) is reused, or the
heap is empty, no slot is null, and the value is appended. -/
theorem ExportTable.push_wf_cases {T : Type} (t : ExportTable T) (val : T) (hwf : t.WF) :
    (∃ m, t.free_ids.min? = some m ∧ m < t.slots.length ∧
      t.slots[m]? = some Option.none ∧
      t.push val = some (m, { slots := t.slots.set m (some val),
                              free_ids := t.free_ids.erase m }) ∧
      ({ slots := t.slots.set m (some val),
         free_ids := t.free_ids.erase m } : ExportTable T).WF ∧
      (∀ b ∈ t.free_ids, m ≤ b)) ∨
    (t.free_ids = [] ∧
      t.push val = some (((t.slots.length + 1) % 2 ^ 32 + (2 ^ 32 - 1)) % 2 ^ 32,
        { slots := t.slots ++ [some val], free_ids := t.free_ids }) ∧
      ({ slots := t.slots ++ [some val], free_ids := t.free_ids } : ExportTable T).WF ∧
      (∀ i : Nat, ¬ t.slots[i]? = some Option.none)) := by
  obtain ⟨hnd, hmem⟩ := hwf
  cases hm : t.free_ids.min? with
  | some m =>
    left
    have hmin := (natList_min?_iff _ _).1 hm
    have hslot : t.slots[m]? = some Option.none := (hmem m).1 hmin.1
    have hlt : m < t.slots.length := by
      obtain ⟨hlt, -⟩ := List.getElem?_eq_some_iff.1 hslot
      exact hlt
    refine ⟨m, rfl, hlt, hslot, ?_, ⟨hnd.erase m, ?_⟩, hmin.2⟩
    · unfold ExportTable.push
      rw [hm]
      simp [hlt]
    · intro i
      by_cases hi : i = m
      · subst hi
        simp [hnd.mem_erase_iff, List.getElem?_set, hlt]
      · rw [hnd.mem_erase_iff]
        simp only [List.getElem?_set, hi, Ne.symm hi, if_false]
        rw [hmem i]
        simp [hi]
  | none =>
    right
    have hfree : t.free_ids = [] := List.min?_eq_none_iff.1 hm
    have hnonull : ∀ i : Nat, ¬ t.slots[i]? = some Option.none := by
      intro i hcon
      have : i ∈ t.free_ids := (hmem i).2 hcon
      rw [hfree] at this
      exact absurd this (List.not_mem_nil i)
    refine ⟨hfree, ?_, ⟨?_, ?_⟩, hnonull⟩
    · unfold ExportTable.push
      rw [hm]
    · rw [hfree]; exact List.nodup_nil
    · intro i
      rw [hfree]
      simp only [List.not_mem_nil, false_iff]
      rcases Nat.lt_trichotomy i t.slots.length with hi | hi | hi
      · rw [List.getElem?_append_left hi]
        exact hnonull i
      · subst hi
        rw [List.getElem?_concat_length]
        simp
      · intro hcon
        have : (t.slots ++ [some val])[i]? = Option.none := by
          rw [List.getElem?_eq_none_iff]
          simp only [List.length_append, List.length_cons, List.length_nil]
          omega
        rw [this] at hcon
        exact Option.noConfusion hcon

/-- `push` on a well-formed table succeeds, preserves well-formedness, and
grows the dense part by at most one slot. -/
theorem ExportTable.push_keeps_wf {T : Type} (t : ExportTable T) (val : T) (id : Nat)
    (t2 : ExportTable T) (hwf : t.WF) (h : t.push val = some (id, t2)) :
    t2.WF ∧ t2.slots.length ≤ t.slots.length + 1 := by
  rcases ExportTable.push_wf_cases t val hwf with ⟨m, -, -, -, heq, hwf2, -⟩ |
      ⟨-, heq, hwf2, -⟩ <;>
    rw [heq] at h <;> have h2 := Option.some.inj h <;>
    have ht2 := congrArg Prod.snd h2 <;> subst ht2
  · exact ⟨hwf2, by simp⟩
  · exact ⟨hwf2, by simp⟩

/-- On a well-formed table whose dense part is below the `u32` limit, `push`
never hands out an id whose slot is currently occupied. -/
theorem ExportTable.push_not_occupied {T : Type} (t : ExportTable T) (val : T) (id : Nat)
    (t2 : ExportTable T) (hwf : t.WF) (hlen : t.slots.length < 2 ^ 32)
    (h : t.push val = some (id, t2)) : ¬ ∃ w, t.slots[id]? = some (some w) := by
  rcases ExportTable.push_wf_cases t val hwf with ⟨m, -, -, hslot, heq, -, -⟩ |
      ⟨-, heq, -, -⟩ <;>
    rw [heq] at h <;> have hid := congrArg Prod.fst (Option.some.inj h) <;>
    simp only at hid <;> subst hid
  · rintro ⟨w, hw⟩
    rw [hslot] at hw
    exact Option.noConfusion (Option.some.inj hw)
  · rw [mod32_append_id _ hlen]
    rintro ⟨w, hw⟩
    have hnone : t.slots[t.slots.length]? = Option.none := by
      rw [List.getElem?_eq_none_iff]
    rw [hnone] at hw
    exact Option.noConfusion hw

/-- `erase` on a live slot of a well-formed table succeeds and preserves
well-formedness. -/
theorem ExportTable.erase_keeps_wf {T : Type} (t : ExportTable T) (id : Nat) (w : T)
    (hwf : t.WF) (hocc : t.slots[id]? = some (some w)) :
    t.erase id = some { slots := t.slots.set id Option.none, free_ids := id :: t.free_ids } ∧
    ({ slots := t.slots.set id Option.none,
       free_ids := id :: t.free_ids } : ExportTable T).WF := by
  obtain ⟨hnd, hmem⟩ := hwf
  have hlt : id < t.slots.length := by
    obtain ⟨hlt, -⟩ := List.getElem?_eq_some_iff.1 hocc
    exact hlt
  have hnotin : id ∉ t.free_ids := by
    intro hcon
    have := (hmem id).1 hcon
    rw [hocc] at this
    exact Option.noConfusion (Option.some.inj this)
  refine ⟨by simp [ExportTable.erase, hlt], ⟨List.nodup_cons.2 ⟨hnotin, hnd⟩, ?_⟩⟩
  intro i
  by_cases hi : i = id
  · subst hi
    simp [List.getElem?_set, hlt]
  · simp only [List.mem_cons, hi, false_or]
    rw [List.getElem?_set]
    simp only [Ne.symm hi, if_false]
    exact hmem i

/-- The empty table is well-formed. -/
theorem ExportTable.new_wf {T : Type} : (@ExportTable.new T).WF := by
  constructor
  · exact List.nodup_nil
  · intro i
    simp [ExportTable.new]

/-- Running a legal prefix from a well-formed table succeeds, preserves
well-formedness, and grows the dense part by at most the prefix length. -/
theorem legal_run_wf {T : Type} (pre : List (TableOp T)) :
    ∀ (t : ExportTable T) (suf : List (TableOp T)), t.WF → LegalSeq t (pre ++ suf) →
      ∃ t2, runOps t pre = some t2 ∧ t2.WF ∧
        t2.slots.length ≤ t.slots.length + pre.length := by
  induction pre with
  | nil =>
    intro t suf hwf _
    exact ⟨t, rfl, hwf, by simp⟩
  | cons op rest ih =>
    intro t suf hwf hleg
    cases hleg with
    | cons _ _ s _ hlegal hrun hrest =>
      have hstep : s.WF ∧ s.slots.length ≤ t.slots.length + 1 := by
        cases op with
        | push v =>
          simp only [runOp] at hrun
          cases hpush : t.push v with
          | none =>
            rw [hpush] at hrun
            exact absurd hrun (by simp)
          | some p =>
            rw [hpush] at hrun
            obtain rfl : p.2 = s := by simpa using hrun
            exact ExportTable.push_keeps_wf t v p.1 p.2 hwf (by rw [hpush])
        | erase id =>
          obtain ⟨w, hocc⟩ := hlegal
          obtain ⟨herase, hwf2⟩ := t.erase_keeps_wf id w hwf hocc
          simp only [runOp] at hrun
          rw [herase] at hrun
          obtain rfl := Option.some.inj hrun
          exact ⟨hwf2, by simp⟩
      obtain ⟨t2, h1, h2, h3⟩ := ih s suf hstep.1 hrest
      refine ⟨t2, ?_, h2, ?_⟩
      · simp only [runOps, hrun]
        exact h1
      · have := hstep.2
        simp only [List.length_cons]
        omega


/-- Claim C3: on every well-formed export table (with its dense part inside
the `u32` id space), `push` returns the smallest currently free id — the
minimum of the free heap when it is nonempty, the fresh append index when it
is empty — and stores the value in that slot; and in the concrete S6
scenario, after allocating ids 0, 1, 2 and erasing id 1, the next two pushes
return 1 and then 3. -/
theorem c3_push_returns_smallest_free_id {T : Type} (t : ExportTable T) (val : T)
    (hwf : t.WF) (hlen : t.slots.length < 2 ^ 32) :
    (∃ id t2, t.push val = some (id, t2) ∧
      t.isFreeId id ∧ (∀ j, t.isFreeId j → id ≤ j) ∧
      t2.slots[id]? = some (some val) ∧
      (∀ m, t.free_ids.min? = some m → id = m) ∧
      (t.free_ids = [] → id = t.slots.length)) ∧
    idReuseNextIds = some (1, 3) := by
  refine ⟨?_, by decide⟩
  rcases ExportTable.push_wf_cases t val hwf with
    ⟨m, hm, hlt, hslot, heq, -, hleast⟩ | ⟨hfree, heq, -, hnonull⟩
  · refine ⟨m, _, heq, Or.inl hslot, ?_, ?_, ?_, ?_⟩
    · intro j hj
      rcases hj with hj | hj
      · exact hleast j ((hwf.2 j).2 hj)
      · exact Nat.le_of_lt (Nat.lt_of_lt_of_le hlt hj)
    · simp [List.getElem?_set, hlt]
    · intro m2 hm2
      rw [hm] at hm2
      exact Option.some.inj hm2
    · intro hnil
      rw [hnil] at hm
      exact absurd hm (by simp)
  · rw [mod32_append_id _ hlen] at heq
    refine ⟨t.slots.length, _, heq, Or.inr (Nat.le_refl _), ?_, ?_, ?_, fun _ => rfl⟩
    · intro j hj
      rcases hj with hj | hj
      · exact absurd hj (hnonull j)
      · exact hj
    · exact List.getElem?_concat_length _ _
    · intro m2 hm2
      rw [hfree] at hm2
      exact absurd hm2 (by simp)

/-- Witness for `c3_push_returns_smallest_free_id` on the empty table over
`Unit`. -/
theorem c3_witness :
    (∃ id t2, (@ExportTable.new Unit).push () = some (id, t2) ∧
      (@ExportTable.new Unit).isFreeId id ∧
      (∀ j, (@ExportTable.new Unit).isFreeId j → id ≤ j) ∧
      t2.slots[id]? = some (some ()) ∧
      (∀ m, (@ExportTable.new Unit).free_ids.min? = some m → id = m) ∧
      ((@ExportTable.new Unit).free_ids = [] → id = (@ExportTable.new Unit).slots.length)) ∧
    idReuseNextIds = some (1, 3) :=
  c3_push_returns_smallest_free_id (@ExportTable.new Unit) () ExportTable.new_wf (by decide)

/-- Claim C4: along every sequence of `push`/`erase` operations from the
empty table in which `erase` is only applied to a live id (which, from the
empty table, is exactly the ids previously returned by `push` and not yet
erased), after every prefix the run has succeeded, the ids in the free heap
are exactly the indices of null slots, and `push` never returns an id whose
slot is currently occupied.  The hypothesis `ops.length < 2 ^ 32` keeps the
dense part inside the `u32` id space, which the table's ids live in. -/
theorem c4_export_table_invariant {T : Type} (ops : List (TableOp T))
    (hlen : ops.length < 2 ^ 32) (hleg : LegalSeq (@ExportTable.new T) ops) :
    ∀ pre suf, ops = pre ++ suf →
      ∃ t, runOps (@ExportTable.new T) pre = some t ∧ t.WF ∧
        (∀ i : Nat, i ∈ t.free_ids ↔ t.slots[i]? = some Option.none) ∧
        ∀ val id t2, t.push val = some (id, t2) →
          ¬ ∃ w, t.slots[id]? = some (some w) := by
  intro pre suf h
  subst h
  obtain ⟨t, hrun, hwf, hle⟩ := legal_run_wf pre (@ExportTable.new T) suf
    ExportTable.new_wf hleg
  refine ⟨t, hrun, hwf, hwf.2, ?_⟩
  intro val id t2 hpush
  have hlt : t.slots.length < 2 ^ 32 := by
    have h1 : pre.length ≤ pre.length + suf.length := Nat.le_add_right _ _
    have h2 : (pre ++ suf).length = pre.length + suf.length := List.length_append _ _
    have h3 : (@ExportTable.new T).slots.length = 0 := rfl
    omega
  exact ExportTable.push_not_occupied t val id t2 hwf hlt hpush

/-- Witness for `c4_export_table_invariant` on the legal run
push, erase 0, push over `Unit`, split after the first two operations. -/
theorem c4_witness :
    ∃ t, runOps (@ExportTable.new Unit) [TableOp.push (), TableOp.erase 0] = some t ∧
      t.WF ∧
      (∀ i : Nat, i ∈ t.free_ids ↔ t.slots[i]? = some Option.none) ∧
      ∀ val id t2, t.push val = some (id, t2) →
        ¬ ∃ w, t.slots[id]? = some (some w) :=
  c4_export_table_invariant
    [TableOp.push (), TableOp.erase 0, TableOp.push ()] (by decide)
    (LegalSeq.cons _ _ _ _ trivial rfl
      (LegalSeq.cons _ _ _ _ ⟨(), rfl⟩ rfl
        (LegalSeq.cons _ _ _ _ trivial rfl (LegalSeq.nil _))))
    [TableOp.push (), TableOp.erase 0] [TableOp.push ()] rfl

/-- Claim C5: when a `Return` of variant `Results` names a question whose
slot is occupied and whose `QuestionRef` is live, and the payload cap table
decodes through `receive_caps`, the dispatcher fulfills the `QuestionRef`
with a `Response` carrying the message and the decoded hooks, and the
question's `is_awaiting_return` flag is false in the resulting state. -/
theorem c5_return_results_fulfills_question (st : ConnState) (message answer_id : Nat)
    (q : Question) (question_ref : Nat) (ds : List CapDescriptor)
    (st2 : ConnState) (hooks : List (Option Hook))
    (hslot : st.questions.slots[answer_id]? = some (some q))
    (href : q.self_ref = some question_ref)
    (hcaps : receiveCaps (clearAwait st answer_id q) ds = some (st2, hooks)) :
    handleReturn st message answer_id (ReturnVariant.results ds) =
      HandleOutcome.ok st2
        [Event.fulfilled question_ref { message := message, hooks := hooks }] ∧
    st2.questions.slots[answer_id]? =
      some (some { q with is_awaiting_return := false }) := by
  constructor
  · simp only [handleReturn, hslot, href, hcaps]
  · rw [receiveCaps_questions ds _ st2 hooks hcaps]
    have hlt : answer_id < st.questions.slots.length := by
      obtain ⟨hlt, -⟩ := List.getElem?_eq_some_iff.1 hslot
      exact hlt
    simp [clearAwait, List.getElem?_set, hlt]

/-- Witness for `c5_return_results_fulfills_question` on a concrete state and
a one-entry cap table. -/
theorem c5_witness :
    handleReturn c5State 42 0 (ReturnVariant.results [CapDescriptor.none]) =
      HandleOutcome.ok (clearAwait c5State 0 c5Question)
        [Event.fulfilled 7 { message := 42, hooks := [Option.none] }] ∧
    (clearAwait c5State 0 c5Question).questions.slots[0]? =
      some (some { c5Question with is_awaiting_return := false }) :=
  c5_return_results_fulfills_question c5State 42 0 c5Question 7 [CapDescriptor.none]
    (clearAwait c5State 0 c5Question) [Option.none] rfl rfl rfl

/-- Claim C6: when a `Return` of variant `Exception` names a question whose
slot is occupied and whose `QuestionRef` is live, the dispatcher rejects the
`QuestionRef` with the decoded error, and the decoding maps the wire types
Failed, Overloaded, Disconnected and Unimplemented to the same-named error
kinds while keeping the wire reason inside the error's reason (prefixed with
"remote exception: "). -/
theorem c6_return_exception_rejects_question (st : ConnState) (message answer_id : Nat)
    (q : Question) (question_ref : Nat) (e : WireException)
    (hslot : st.questions.slots[answer_id]? = some (some q))
    (href : q.self_ref = some question_ref) :
    (handleReturn st message answer_id (ReturnVariant.exception e) =
      HandleOutcome.ok (clearAwait st answer_id q)
        [Event.rejected question_ref (remoteExceptionToError e)]) ∧
    (∀ r, remoteExceptionToError { etype := some ExcType.failed, reason := some r } =
      { kind := ErrorKind.failed, reason := "remote exception: " ++ r }) ∧
    (∀ r, remoteExceptionToError { etype := some ExcType.overloaded, reason := some r } =
      { kind := ErrorKind.overloaded, reason := "remote exception: " ++ r }) ∧
    (∀ r, remoteExceptionToError { etype := some ExcType.disconnected, reason := some r } =
      { kind := ErrorKind.disconnected, reason := "remote exception: " ++ r }) ∧
    (∀ r, remoteExceptionToError { etype := some ExcType.unimplemented, reason := some r } =
      { kind := ErrorKind.unimplemented, reason := "remote exception: " ++ r }) := by
  refine ⟨?_, fun r => rfl, fun r => rfl, fun r => rfl, fun r => rfl⟩
  simp only [handleReturn, hslot, href]

/-- Witness for `c6_return_exception_rejects_question` on a concrete state
and wire exception. -/
theorem c6_witness :
    handleReturn c6State 41 0
        (ReturnVariant.exception { etype := some ExcType.failed, reason := some "bad" }) =
      HandleOutcome.ok (clearAwait c6State 0 c6Question)
        [Event.rejected 9 (remoteExceptionToError
          { etype := some ExcType.failed, reason := some "bad" })] :=
  (c6_return_exception_rejects_question c6State 41 0 c6Question 9
    { etype := some ExcType.failed, reason := some "bad" } rfl rfl).1

/-- Claim C7: receiving a `SenderHosted(id)` descriptor yields an
`ImportClient` for `id` — the existing one when the import table already has
one, a fresh one otherwise — and bumps its `remote_ref_count` by exactly one.
The hypothesis states the table invariant that registered clients are keyed
by their own import id (true of every reachable state, since `importCap`
creates clients with `import_id := id`). -/
theorem c7_sender_hosted_bumps_refcount (st : ConnState) (id : Nat)
    (hwf : ∀ k c, lookupImportClient st k = some c → c.import_id = k) :
    ∃ st2 c, receiveCap st (CapDescriptor.sender_hosted id) =
        some (st2, some (Hook.imported c)) ∧
      c.import_id = id ∧
      c.remote_ref_count = importedRefCount st id + 1 ∧
      lookupImportClient st2 id = some c ∧
      importedRefCount st2 id = importedRefCount st id + 1 ∧
      (∀ c0, lookupImportClient st id = some c0 →
        c = { c0 with remote_ref_count := c0.remote_ref_count + 1 }) ∧
      (lookupImportClient st id = Option.none →
        c = { import_id := id, remote_ref_count := 1 }) := by
  cases hl : st.imports.lookup id with
  | none =>
    have hlic : lookupImportClient st id = Option.none := by
      simp [lookupImportClient, hl]
    refine ⟨ConnState.mk st.brand st.exports st.questions
        (listInsert id (Import.mk (some (ImportClient.mk id 1)) true) st.imports)
        st.exports_by_cap,
      ImportClient.mk id 1, ?_, rfl, ?_, ?_, ?_, ?_, fun _ => rfl⟩
    · simp [receiveCap, importCap, hl, Import.new]
    · simp [importedRefCount, lookupImportClient, hl]
    · simp [lookupImportClient, lookup_listInsert]
    · simp [importedRefCount, lookupImportClient, lookup_listInsert, hl]
    · intro c0 hc0
      rw [hlic] at hc0
      exact absurd hc0 (by simp)
  | some entry =>
    cases hc : entry.import_client with
    | none =>
      have hlic : lookupImportClient st id = Option.none := by
        simp [lookupImportClient, hl, hc]
      refine ⟨ConnState.mk st.brand st.exports st.questions
          (listInsert id (Import.mk (some (ImportClient.mk id 1)) true) st.imports)
          st.exports_by_cap,
        ImportClient.mk id 1, ?_, rfl, ?_, ?_, ?_, ?_, fun _ => rfl⟩
      · simp [receiveCap, importCap, hl, hc]
      · simp [importedRefCount, lookupImportClient, hl, hc]
      · simp [lookupImportClient, lookup_listInsert]
      · simp [importedRefCount, lookupImportClient, lookup_listInsert, hl, hc]
      · intro c0 hc0
        rw [hlic] at hc0
        exact absurd hc0 (by simp)
    | some c0 =>
      have hlic : lookupImportClient st id = some c0 := by
        simp [lookupImportClient, hl, hc]
      have hid : c0.import_id = id := hwf id c0 hlic
      refine ⟨ConnState.mk st.brand st.exports st.questions
          (listInsert id
            (Import.mk (some (ImportClient.mk c0.import_id (c0.remote_ref_count + 1))) true)
            st.imports)
          st.exports_by_cap,
        ImportClient.mk c0.import_id (c0.remote_ref_count + 1), ?_, hid, ?_, ?_, ?_, ?_, ?_⟩
      · simp [receiveCap, importCap, hl, hc]
      · simp [importedRefCount, lookupImportClient, hl, hc]
      · simp [lookupImportClient, lookup_listInsert]
      · simp [importedRefCount, lookupImportClient, lookup_listInsert, hl, hc]
      · intro c1 hc1
        rw [hlic] at hc1
        rw [Option.some.inj hc1]
      · intro hcon
        rw [hlic] at hcon
        exact absurd hcon (by simp)

/-- Witness for `c7_sender_hosted_bumps_refcount` on an empty import table. -/
theorem c7_witness :
    ∃ st2 c, receiveCap c7State (CapDescriptor.sender_hosted 5) =
        some (st2, some (Hook.imported c)) ∧
      c.import_id = 5 ∧
      c.remote_ref_count = importedRefCount c7State 5 + 1 ∧
      lookupImportClient st2 5 = some c ∧
      importedRefCount st2 5 = importedRefCount c7State 5 + 1 ∧
      (∀ c0, lookupImportClient c7State 5 = some c0 →
        c = { c0 with remote_ref_count := c0.remote_ref_count + 1 }) ∧
      (lookupImportClient c7State 5 = Option.none →
        c = { import_id := 5, remote_ref_count := 1 }) :=
  c7_sender_hosted_bumps_refcount c7State 5
    (fun k c h => by simp [lookupImportClient, c7State, List.lookup] at h)

/-- Claim C9: `get_message_target` on `ImportedCap(id)` returns `Ok(None)` —
neither an error nor a crash — whenever `id` is out of range of the export
table or names an erased slot, and returns `Ok(Some(hook))` with the clone of
the export's client hook exactly when the slot holds a live export. -/
theorem c9_imported_cap_target (st : ConnState) (id : Nat) :
    ((st.exports.slots[id]? = some Option.none ∨ st.exports.slots.length ≤ id) →
      getMessageTarget st (MessageTarget.imported_cap id) = GMTOutcome.ok Option.none) ∧
    (∀ exp, st.exports.slots[id]? = some (some exp) →
      getMessageTarget st (MessageTarget.imported_cap id) =
        GMTOutcome.ok (some (Hook.exported exp.client_hook))) := by
  constructor
  · intro h
    rcases h with h | h
    · simp [getMessageTarget, h]
    · have hnone : st.exports.slots[id]? = Option.none := by
        rw [List.getElem?_eq_none_iff]
        exact h
      simp [getMessageTarget, hnone]
  · intro exp h
    simp [getMessageTarget, h]

/-- Witness for `c9_imported_cap_target` on a concrete export table with a
live slot 0, an erased slot 1 and out-of-range id 2. -/
theorem c9_witness :
    getMessageTarget c9State (MessageTarget.imported_cap 1) = GMTOutcome.ok Option.none ∧
    getMessageTarget c9State (MessageTarget.imported_cap 2) = GMTOutcome.ok Option.none ∧
    getMessageTarget c9State (MessageTarget.imported_cap 0) =
      GMTOutcome.ok (some (Hook.exported c9Export.client_hook)) :=
  ⟨(c9_imported_cap_target c9State 1).1 (Or.inl rfl),
   (c9_imported_cap_target c9State 2).1 (Or.inr (by decide)),
   (c9_imported_cap_target c9State 0).2 c9Export rfl⟩

/-- Claim C1 (code_bug evidence).  The claim says that when the innermost
settled capability is local and its `get_ptr` key is already in
`exports_by_cap`, `write_descriptor` increments the existing export's
refcount and emits `SenderHosted` with the existing id.  The code instead
reaches the `unimplemented!()` at rpc.rs line 622 — directly contradicting
its own comment "We've already seen and exported this capability before.
Just up the refcount." — evaluated here on a concrete re-export. -/
theorem c1_reexport_panics_instead_of_refcount :
    writeDescriptor c1State c1Cap = WDOutcome.crashed := rfl

/-- Claim C2 (code_bug evidence).  The claim says resolving a promise client
with `received_call = true` to a local target is always preceded by a
`Disembargo` and the redirect waits for the echo.  In the code the embargo
block is guarded by `if false && !is_error` (rpc.rs line 1279) and its body
is only a comment, so on a concrete promise with `received_call = true`
resolving to a brand-0 (local) replacement emits no message at all and the
redirect (`cap` replaced, `is_resolved` set) takes effect immediately. -/
theorem c2_resolve_to_local_emits_no_disembargo :
    c2Promise.received_call = true ∧
    (resolveInner c2LocalTarget).brand = 0 ∧
    (c2Promise.resolve c2LocalTarget false).2 = [] ∧
    (c2Promise.resolve c2LocalTarget false).1.is_resolved = true ∧
    (c2Promise.resolve c2LocalTarget false).1.cap = c2LocalTarget :=
  ⟨rfl, rfl, rfl, rfl, rfl⟩

/-- Claim C8 (code_bug evidence).  The claim says dropping a `QuestionRef`
sends exactly one `Finish` for its question.  The body of
`impl Drop for QuestionRef` (rpc.rs lines 166-170) is only the comment
`// TODO send the Finish message.`, so dropping any `QuestionRef` emits no
message at all — in particular zero `Finish` messages, not one. -/
theorem c8_drop_emits_no_finish (q : QuestionRef) :
    QuestionRef.dropEmitted q = [] ∧
    (QuestionRef.dropEmitted q).countP (fun m => m.isFinish) = 0 :=
  ⟨rfl, rfl⟩

/-- Claim C10 counterexample.  When the wire type fails to decode but the
reason decodes to "boom", the produced reason is
"remote exception: (malformed error)", not the wire reason "boom" prefixed
with "remote exception: " — refuting the claim's "in every case" clause. -/
theorem c10_malformed_type_discards_decoded_reason :
    remoteExceptionToError { etype := Option.none, reason := some "boom" } =
      { kind := ErrorKind.failed, reason := "remote exception: (malformed error)" } ∧
    "remote exception: (malformed error)" ≠ "remote exception: " ++ "boom" := by
  constructor
  · rfl
  · decide

/-- Claim C10 as amended: `remote_exception_to_error` is total; when both the
type and the reason decode, the kind is the image of the wire type under the
Failed/Overloaded/Disconnected/Unimplemented mapping and the reason is the
wire reason prefixed with "remote exception: "; when either field fails to
decode (including an unknown type discriminant), the kind is `Failed` and the
reason is "remote exception: " prefixed to "(malformed error)" — the wire
reason, even if it decoded, is not used. -/
theorem c10_amended_decode_fallback (e : WireException) :
    (∀ t r, e.etype = some t → e.reason = some r →
      remoteExceptionToError e =
        { kind := excTypeKind t, reason := "remote exception: " ++ r }) ∧
    ((e.etype = Option.none ∨ e.reason = Option.none) →
      (remoteExceptionToError e).kind = ErrorKind.failed ∧
      (remoteExceptionToError e).reason = "remote exception: " ++ "(malformed error)") := by
  obtain ⟨et, er⟩ := e
  constructor
  · rintro t r rfl rfl
    cases t <;> rfl
  · rintro (h | h) <;> subst h
    · cases er with
      | none => exact ⟨rfl, rfl⟩
      | some r => exact ⟨rfl, rfl⟩
    · rcases et with _ | t
      · exact ⟨rfl, rfl⟩
      · cases t <;> exact ⟨rfl, rfl⟩

/-- Witness for `c10_amended_decode_fallback` at concrete exceptions. -/
theorem c10_amended_witness :
    remoteExceptionToError { etype := some ExcType.overloaded, reason := some "slow down" } =
      { kind := excTypeKind ExcType.overloaded, reason := "remote exception: " ++ "slow down" } ∧
    (remoteExceptionToError { etype := Option.none, reason := Option.none }).kind =
      ErrorKind.failed :=
  ⟨(c10_amended_decode_fallback _).1 ExcType.overloaded "slow down" rfl rfl,
   ((c10_amended_decode_fallback _).2 (Or.inl rfl)).1⟩

end Rpc
